import Mathlib

/-!
Verification of the `anime_sama_api/catalogue.py` module.

The Python code is shallowly embedded: strings are Lean `String`s viewed as
their lists of characters (Python string indexing/slicing is over code
points, which matches `String.data` as a `List Char`), `None`-able values
are `Option`s, dictionaries coming from the metadata API are flattened into
records of their used fields, and a constructor or method that can raise an
`IndexError` is embedded as an `Option`-returning function.  Network access
is embedded as an explicit oracle argument (`String → Response` for the
page fetch, `String → QueryOutcome` for the metadata API), and every
network-using method additionally returns the list (or the count) of
requests it performed, so that "at most one network call" style properties
can be stated.  Character classes of the Python regexes (`\w`, `\s`) are
modelled at the ASCII level.
-/

namespace AnimeSama

/-- Python `\s` (ASCII level): the whitespace characters of `str.strip` and
of the `\s` regex class. -/
def isPySpace (c : Char) : Bool :=
  c == ' ' || c == '\t' || c == '\n' || c == '\r' || c == '\x0b' || c == '\x0c'

/-- Python `\w` (ASCII level): alphanumeric or underscore. -/
def isWordChar (c : Char) : Bool :=
  c.isAlphanum || c == '_'

/-- An ASCII uppercase letter, phrased over the code point. -/
def isAsciiUpper (c : Char) : Bool :=
  65 ≤ c.toNat && c.toNat ≤ 90

/-- Python `str.lower` (ASCII level). -/
def pyLower (s : String) : String :=
  ⟨s.data.map Char.toLower⟩

/-- Python `str.strip`: remove leading and trailing whitespace. -/
def pyStrip (s : String) : String :=
  ⟨((s.data.dropWhile isPySpace).reverse.dropWhile isPySpace).reverse⟩

/-- Embedding of `re.sub(r'[^\w\s]', '', s)`: delete every character that is
neither a word character nor whitespace. -/
def pySubNonWord (s : String) : String :=
  ⟨s.data.filter (fun c => isWordChar c || isPySpace c)⟩

/-- The `normalize` helper inside `Catalogue._titles_match`:
`re.sub(r'[^\w\s]', '', title.lower().strip())`. -/
def normalize (title : String) : String :=
  pySubNonWord (pyStrip (pyLower title))

/-- Bool test that `pat` is an initial segment of `s`. -/
def listStartsWith : List Char → List Char → Bool
  | [], _ => true
  | _ :: _, [] => false
  | p :: ps, c :: cs => p == c && listStartsWith ps cs

/-- Bool test that `pat` occurs contiguously in `s` (Python's `in` on
strings; the empty pattern occurs in every string). -/
def listContainsSub (pat : List Char) : List Char → Bool
  | [] => listStartsWith pat []
  | c :: cs => listStartsWith pat (c :: cs) || listContainsSub pat cs

/-- Python `a in b` for strings. -/
def pyIn (a b : String) : Bool :=
  listContainsSub a.data b.data

/-- Python `s[:4]` (over code points). -/
def pyTake4 (s : String) : String :=
  ⟨s.data.take 4⟩

/-- Python `s[-1]` as an `Option` (`none` models the `IndexError` on the
empty string). -/
def lastChar (s : String) : Option Char :=
  s.data.getLast?

/-- Python `s.split("/")` on the character list: always returns at least one
(possibly empty) part, empty parts between consecutive separators are
kept. -/
def pySplitSlash : List Char → List (List Char)
  | [] => [[]]
  | c :: cs =>
    if c = '/' then [] :: pySplitSlash cs
    else
      match pySplitSlash cs with
      | [] => [[c]]
      | h :: t => (c :: h) :: t

/-- Python `l[-2]` as an `Option` (`none` models the `IndexError` when the
list has fewer than two elements). -/
def pyIndexFromEnd2 (l : List (List Char)) : Option (List Char) :=
  if 2 ≤ l.length then l[l.length - 2]? else none

/-- Python `"/".join l`. -/
def joinSlash (l : List (List Char)) : List Char :=
  List.intercalate ['/'] l

/-- The state of a `Catalogue` object (the shared HTTP client is an opaque
external resource and is not part of the embedded state). -/
structure Catalogue where
  url : String
  site_url : String
  name : String
  _raw_name : String
  _page : Option String
  _name_with_year : Option String
  alternative_names : List String
  genres : List String
  categories : List String
  languages : List String
  image_url : String
deriving DecidableEq

/-- Line 41 of the source: `url + "/" if url[-1] != "/" else url`; `none`
models the `IndexError` raised on an empty `url`. -/
def canonicalUrl (url : String) : Option String :=
  match lastChar url with
  | none => none
  | some ch => some (if ch ≠ '/' then url ++ "/" else url)

/-- `Catalogue.__init__`.  The two failure points of the Python constructor
(`url[-1]` on an empty url, `url.split("/")[-2]` on a url whose split has a
single part, evaluated only when `name` is falsy) are surfaced as `none`.
Defaulted-to-empty optional arguments are taken as already-defaulted
values. -/
def mkCatalogue (url : String) (name : String) (alternative_names : List String)
    (genres : List String) (categories : List String) (languages : List String)
    (image_url : String) : Option Catalogue :=
  match canonicalUrl url with
  | none => none
  | some canon =>
    match (if name ≠ "" then some name
           else (pyIndexFromEnd2 (pySplitSlash url.data)).map List.asString) with
    | none => none
    | some base =>
      some { url := canon
             site_url := (joinSlash ((pySplitSlash url.data).take 3)).asString ++ "/"
             name := match alternative_names with
                     | [] => base
                     | a :: _ => a
             _raw_name := base
             _page := none
             _name_with_year := none
             alternative_names := alternative_names
             genres := genres
             categories := categories
             languages := languages
             image_url := image_url }

/-- An HTTP response as consumed by `Catalogue.page` (only the success flag
and the body text are read). -/
structure Response where
  is_success : Bool
  text : String

/-- `Catalogue.page`.  The network is an oracle from URL to response; the
result is the returned text, the updated object state, and the list of URLs
that were requested during the call. -/
def pageFn (c : Catalogue) (net : String → Response) :
    String × Catalogue × List String :=
  match c._page with
  | some p => (p, c, [])
  | none =>
    let r := net c.url
    let newPage := if !r.is_success then "" else r.text
    (newPage, { c with _page := some newPage }, [c.url])

/-- `Catalogue.__eq__` (on two `Catalogue`s): compares the canonical URLs
only. -/
def catalogueEq (a b : Catalogue) : Bool :=
  a.url == b.url

/-- `Catalogue._titles_match`. -/
def _titles_match (searchTitle apiTitle : String) : Bool :=
  if apiTitle = "" then false
  else
    let ns := normalize searchTitle
    let na := normalize apiTitle
    ns == na || pyIn ns na || pyIn na ns

/-- One record of the metadata API response, flattened to the fields the
code reads: `title`, `title_english`, `title_japanese` (absent modelled as
`""`, as produced by the `.get(..., "")` defaults), optional `year`, and
the optional `aired.from` string (`none` for an absent or null field). -/
structure AnimeRecord where
  title : String
  title_english : String
  title_japanese : String
  year : Option Int
  aired_from : Option String
deriving DecidableEq

/-- The outcome of one metadata query: an exception during the attempt, or
a response with an HTTP status and (for status 200) the parsed `data`
list. -/
inductive QueryOutcome where
  | error
  | response (status : Nat) (data : List AnimeRecord)

/-- The URL built for a candidate name (line 130-131 of the source). -/
def jikanUrl (nameToSearch : String) : String :=
  "https://api.jikan.moe/v4/anime?q=" ++ nameToSearch.replace " " "+" ++ "&limit=3"

/-- The per-record match test of `get_name_with_year` (lines 146-148). -/
def recordMatches (nameToSearch : String) (a : AnimeRecord) : Bool :=
  _titles_match nameToSearch a.title ||
  _titles_match nameToSearch a.title_english ||
  _titles_match nameToSearch a.title_japanese

/-- The `aired.from` fallback of the year derivation (line 151-154): first 4
characters of the start date when it is present and non-empty (Python
truthiness), else the empty string. -/
def airedPrefix (a : AnimeRecord) : String :=
  match a.aired_from with
  | none => ""
  | some s => if s = "" then "" else pyTake4 s

/-- Composition of the result when the year came from the `aired.from`
string: `f"{title} ({year})"` when the string is truthy, else the bare
title. -/
def composeFromAired (a : AnimeRecord) : String :=
  let ys := airedPrefix a
  if ys ≠ "" then a.title ++ " (" ++ ys ++ ")" else a.title

/-- The year derivation and composition of lines 150-159.  Python's
`anime.get("year") or ...` falls through on a missing or zero year
(truthiness of `None` and `0`); a present non-zero integer year is
formatted directly. -/
def composeNameYear (a : AnimeRecord) : String :=
  match a.year with
  | some y => if y == 0 then composeFromAired a else a.title ++ " (" ++ toString y ++ ")"
  | none => composeFromAired a

/-- The candidate loop of `get_name_with_year` (lines 128-164): for each
name, one query is issued; an exception or a non-200 status or a 200
response without a matching record falls through to the next candidate;
the first matching record of a 200 response ends the loop.  Returns the
composed result (if any) and the number of queries performed. -/
def resolveGo (oracle : String → QueryOutcome) : List String → Option String × Nat
  | [] => (none, 0)
  | n :: ns =>
    match oracle (jikanUrl n) with
    | QueryOutcome.error =>
      ((resolveGo oracle ns).1, (resolveGo oracle ns).2 + 1)
    | QueryOutcome.response status data =>
      if status = 200 then
        match data.find? (recordMatches n) with
        | some a => (some (composeNameYear a), 1)
        | none => ((resolveGo oracle ns).1, (resolveGo oracle ns).2 + 1)
      else ((resolveGo oracle ns).1, (resolveGo oracle ns).2 + 1)

/-- The candidate-name list of line 126: `[self.name] + self.alternative_names`. -/
def namesToTry (c : Catalogue) : List String :=
  c.name :: c.alternative_names

/-- `Catalogue.get_name_with_year`: cached result short-circuits with no
query; otherwise the candidate loop runs and its result (or the fallback
`self.name`) is cached.  Returns the value, the updated state, and the
number of metadata queries performed. -/
def get_name_with_year (c : Catalogue) (oracle : String → QueryOutcome) :
    String × Catalogue × Nat :=
  match c._name_with_year with
  | some v => (v, c, 0)
  | none =>
    match resolveGo oracle (namesToTry c) with
    | (some v, k) => (v, { c with _name_with_year := some v }, k)
    | (none, k) => (c.name, { c with _name_with_year := some c.name }, k)

/-- Bool form of "the query for `n` yields no match": an exception, a
non-200 status, or a 200 response none of whose records matches. -/
def queryYieldsNoMatch (oracle : String → QueryOutcome) (n : String) : Bool :=
  match oracle (jikanUrl n) with
  | QueryOutcome.error => true
  | QueryOutcome.response status data =>
    if status = 200 then (data.find? (recordMatches n)).isNone else true

/-- The literal head of the season declaration regex of line 76:
`panneauAnime\("`. -/
def panneauLit : List Char :=
  ['p', 'a', 'n', 'n', 'e', 'a', 'u', 'A', 'n', 'i', 'm', 'e', '(', '"']

/-- The first alternative of `(?:vostfr|vf)"\);` together with the closing
literal. -/
def vostfrClose : List Char :=
  ['v', 'o', 's', 't', 'f', 'r', '"', ')', ';']

/-- The second alternative of `(?:vostfr|vf)"\);` together with the closing
literal. -/
def vfClose : List Char :=
  ['v', 'f', '"', ')', ';']

/-- The characters of the `vostfr` language marker. -/
def vostfrMk : List Char :=
  ['v', 'o', 's', 't', 'f', 'r']

/-- The characters of the `vf` language marker. -/
def vfMk : List Char :=
  ['v', 'f']

/-- The closing literal `"\);` of the declaration regex. -/
def closeLit : List Char :=
  ['"', ')', ';']

/-- Match a literal character sequence at the head of the input, returning
the rest of the input on success. -/
def litMatch : List Char → List Char → Option (List Char)
  | [], s => some s
  | _ :: _, [] => none
  | c :: cs, d :: ds => if c = d then litMatch cs ds else none

/-- Match `(?:vostfr|vf)"\);` at the head of the input.  The two
alternatives are disjoint (they differ at their second character), so the
regex engine's left-to-right alternative order is immaterial. -/
def markerTail (s : List Char) : Option (List Char) :=
  match litMatch vostfrClose s with
  | some r => some r
  | none => litMatch vfClose s

/-- The lazy `(.+?)` capture of the link followed by `(?:vostfr|vf)"\);`:
consume at least one non-newline character, trying the marker-and-close
continuation after each character (shortest capture first, exactly the
backtracking order of a lazy quantifier).  Returns the capture and the rest
of the input after the match. -/
def scanLink (acc : List Char) : List Char → Option (List Char × List Char)
  | [] => none
  | c :: cs =>
    if c = '\n' then none
    else
      match markerTail cs with
      | some rest => some (acc ++ [c], rest)
      | none => scanLink (acc ++ [c]) cs

/-- The continuation after the name capture: `", *"` then the link part.
The greedy ` *` followed by the mandatory `"` is deterministic (a backtrack
would leave a space where `"` is required), so it is embedded as
`dropWhile` then a one-character test. -/
def contAfterName (s : List Char) : Option (List Char × List Char) :=
  match litMatch ['"', ','] s with
  | none => none
  | some r =>
    match r.dropWhile (fun c => c == ' ') with
    | '"' :: r2 => scanLink [] r2
    | _ => none

/-- The lazy `(.+?)` capture of the season name followed by the
continuation: same shortest-first backtracking as `scanLink`.  Returns the
name capture, the link capture, and the rest of the input. -/
def scanName (acc : List Char) : List Char → Option (List Char × List Char × List Char)
  | [] => none
  | c :: cs =>
    if c = '\n' then none
    else
      match contAfterName cs with
      | some lr => some (acc ++ [c], lr.1, lr.2)
      | none => scanName (acc ++ [c]) cs

/-- Try to match the whole season declaration pattern
`panneauAnime\("(.+?)", *"(.+?)(?:vostfr|vf)"\);` at the head of the
input. -/
def matchAt (s : List Char) : Option (List Char × List Char × List Char) :=
  match litMatch panneauLit s with
  | none => none
  | some r => scanName [] r

/-- Fuelled scan of `re.findall`: at each position try the pattern; on a
match record the two captures and continue after the match, otherwise
advance one character.  The fuel only serves structural recursion and is
always instantiated with the input length, which suffices because a match
consumes at least one character. -/
def findallF : Nat → List Char → List (List Char × List Char)
  | 0, _ => []
  | _ + 1, [] => []
  | fuel + 1, c :: cs =>
    match matchAt (c :: cs) with
    | some (n, l, rest) => (n, l) :: findallF fuel rest
    | none => findallF fuel cs

/-- `re.findall(r'panneauAnime\("(.+?)", *"(.+?)(?:vostfr|vf)"\);', page)`:
the list of (name, link) capture pairs in document order. -/
def findall (s : List Char) : List (List Char × List Char) :=
  findallF s.length s

/-- The `Season` record constructed by `Catalogue.seasons` (an external
collaborator of this module: it owns the absolute URL, the season name and
the resolved series name passed to it). -/
structure Season where
  url : String
  name : String
  serie_name : String
deriving DecidableEq

/-- Lines 75-90 of `Catalogue.seasons`, operating on the
already-comment-stripped page body: one `Season` per regex match, in
document order, with `url = self.url + link`. -/
def seasonsFromCleaned (c : Catalogue) (cleaned : String) (serieName : String) :
    List Season :=
  (findall cleaned.data).map
    (fun p => { url := c.url ++ p.2.asString, name := p.1.asString, serie_name := serieName })

/-- One season declaration together with the separator text preceding it,
used to build test pages for the extraction theorem. -/
structure DeclItem where
  sep : String
  name : String
  link : String
  marker : String
deriving DecidableEq

/-- The canonical text of one season declaration:
`panneauAnime("<name>", "<link><marker>");`. -/
def declText (name link marker : String) : String :=
  "panneauAnime(\"" ++ name ++ "\", \"" ++ link ++ marker ++ "\");"

/-- A page made of separator-prefixed declarations followed by a final
trailing separator. -/
def buildPage : List DeclItem → String → String
  | [], last => last
  | d :: ds, last => d.sep ++ declText d.name d.link d.marker ++ buildPage ds last

/-- A capture-safe string: non-empty and free of `"` and of newlines (so a
lazy capture spans it exactly). -/
def goodStr (s : String) : Bool :=
  !(s == "") && s.data.all (fun c => !(c == '"') && !(c == '\n'))

/-- No occurrence of the `panneauAnime\("` literal starts inside `sep` when
`sep` is followed by `tail` (straddling occurrences included). -/
def noLitIn (sep : String) (tail : List Char) : Bool :=
  (List.range sep.data.length).all
    (fun k => (litMatch panneauLit (sep.data.drop k ++ tail)).isNone)

/-- All separators of a built page are free of (possibly straddling)
occurrences of the declaration-head literal. -/
def sepsOk : List DeclItem → String → Bool
  | [], last => noLitIn last []
  | d :: ds, last =>
    noLitIn d.sep (declText d.name d.link d.marker ++ buildPage ds last).data
      && sepsOk ds last

/-- Modelled from the spec: the "slug (last path segment)" of a URL — the
last maximal run of non-`/` characters, ignoring a trailing separator.
Used only to compare the spec's wording against the constructor's actual
name derivation. -/
def slugSpec (u : String) : String :=
  (((u.data.reverse).dropWhile (fun c => c == '/')).takeWhile (fun c => !(c == '/'))).reverse.asString

/-- Modelled from the spec: the year derivation of §4.5 step 4 read
literally — "prefer an explicit year field; otherwise take the first 4
characters of a start-date field if present; otherwise no year".  Used only
to compare the spec's wording against `composeNameYear`. -/
def specComposeNameYear (a : AnimeRecord) : String :=
  match a.year with
  | some y => a.title ++ " (" ++ toString y ++ ")"
  | none =>
    match a.aired_from with
    | some s => a.title ++ " (" ++ pyTake4 s ++ ")"
    | none => a.title

/-- An oracle on which every metadata query raises. -/
def errOracle : String → QueryOutcome := fun _ => QueryOutcome.error

/-- A record as returned by the metadata API for "Naruto". -/
def narutoRec : AnimeRecord :=
  { title := "Naruto", title_english := "", title_japanese := ""
    year := some 2002, aired_from := none }

/-- An oracle answering every query with the single Naruto record. -/
def narutoOracle : String → QueryOutcome :=
  fun _ => QueryOutcome.response 200 [narutoRec]

/-- A record with an explicit zero year and a start date. -/
def aZero : AnimeRecord :=
  { title := "T", title_english := "", title_japanese := ""
    year := some 0, aired_from := some "1999-01-01" }

/-- A record with no year and an empty start date. -/
def aEmptyAired : AnimeRecord :=
  { title := "U", title_english := "", title_japanese := ""
    year := none, aired_from := some "" }

/-- A freshly constructed catalogue entity (the value of
`mkCatalogue "https://anime-sama.fr/catalogue/naruto/" "" [] [] [] [] ""`). -/
def catW1 : Catalogue :=
  { url := "https://anime-sama.fr/catalogue/naruto/"
    site_url := "https://anime-sama.fr/", name := "naruto", _raw_name := "naruto"
    _page := none, _name_with_year := none, alternative_names := []
    genres := [], categories := [], languages := [], image_url := "" }

/-- A network oracle whose every response is a failure. -/
def netFail : String → Response := fun _ => { is_success := false, text := "irrelevant" }

/-- A catalogue entity for the season-extraction test page. -/
def catW2 : Catalogue :=
  { url := "https://anime-sama.fr/catalogue/one-piece/"
    site_url := "https://anime-sama.fr/", name := "one-piece", _raw_name := "one-piece"
    _page := none, _name_with_year := none, alternative_names := []
    genres := [], categories := [], languages := [], image_url := "" }

/-- Two season declarations with separator text around them. -/
def itemsW2 : List DeclItem :=
  [{ sep := "<html>\n", name := "Saison 1", link := "saison1/", marker := "vostfr" },
   { sep := "\ndiv\n", name := "Film", link := "film/", marker := "vf" }]

/-- The trailing separator of the season-extraction test page. -/
def lastW2 : String := "\n</html>"

/-- A catalogue entity with an alternative name and no cached resolution. -/
def catW3 : Catalogue :=
  { url := "https://anime-sama.fr/catalogue/bleach/"
    site_url := "https://anime-sama.fr/", name := "Bleach Alt", _raw_name := "bleach"
    _page := none, _name_with_year := none, alternative_names := ["Bleach Alt"]
    genres := [], categories := [], languages := [], image_url := "" }

/-- A catalogue entity whose display name is "Naruto". -/
def catW6 : Catalogue :=
  { url := "https://anime-sama.fr/catalogue/naruto/"
    site_url := "https://anime-sama.fr/", name := "Naruto", _raw_name := "Naruto"
    _page := none, _name_with_year := none, alternative_names := []
    genres := [], categories := [], languages := [], image_url := "" }

/-- The entity built from the trailing-slash Naruto URL with empty name and
no alternates. -/
def catW7 : Catalogue :=
  { url := "https://anime-sama.fr/catalogue/naruto/"
    site_url := "https://anime-sama.fr/", name := "naruto", _raw_name := "naruto"
    _page := none, _name_with_year := none, alternative_names := []
    genres := [], categories := [], languages := [], image_url := "" }

/-- Same constructor URL as `catW7` but with an alternative name supplied. -/
def catW7b : Catalogue :=
  { url := "https://anime-sama.fr/catalogue/naruto/"
    site_url := "https://anime-sama.fr/", name := "Alt", _raw_name := "naruto"
    _page := none, _name_with_year := none, alternative_names := ["Alt"]
    genres := [], categories := [], languages := [], image_url := "" }

/-- Entity from URL `.../naruto` (no trailing slash) with explicit name A. -/
def catW8a : Catalogue :=
  { url := "https://anime-sama.fr/catalogue/naruto/"
    site_url := "https://anime-sama.fr/", name := "A", _raw_name := "A"
    _page := none, _name_with_year := none, alternative_names := []
    genres := [], categories := [], languages := [], image_url := "" }

/-- Entity from URL `.../naruto/` (trailing slash) with explicit name B. -/
def catW8b : Catalogue :=
  { url := "https://anime-sama.fr/catalogue/naruto/"
    site_url := "https://anime-sama.fr/", name := "B", _raw_name := "B"
    _page := none, _name_with_year := none, alternative_names := []
    genres := [], categories := [], languages := [], image_url := "" }

/-- Entity from a different URL, sharing name A with `catW8a`. -/
def catW8c : Catalogue :=
  { url := "https://anime-sama.fr/catalogue/bleach/"
    site_url := "https://anime-sama.fr/", name := "A", _raw_name := "A"
    _page := none, _name_with_year := none, alternative_names := []
    genres := [], categories := [], languages := [], image_url := "" }

/-- Entity built from the slash-free URL "x" with explicit name "N". -/
def catW9 : Catalogue :=
  { url := "x/", site_url := "x/", name := "N", _raw_name := "N"
    _page := none, _name_with_year := none, alternative_names := []
    genres := [], categories := [], languages := [], image_url := "" }

/-- Entity with two alternative names overriding the slug-derived name. -/
def catW10 : Catalogue :=
  { url := "https://anime-sama.fr/catalogue/op/"
    site_url := "https://anime-sama.fr/", name := "A", _raw_name := "op"
    _page := none, _name_with_year := none, alternative_names := ["A", "B"]
    genres := [], categories := [], languages := [], image_url := "" }

theorem litMatch_some_iff (p : List Char) :
    ∀ s r, litMatch p s = some r ↔ s = p ++ r := by
  induction p with
  | nil =>
    intro s r
    simp [litMatch]
  | cons c cs ih =>
    intro s r
    cases s with
    | nil =>
      simp [litMatch]
    | cons d ds =>
      by_cases h : c = d
      · subst h
        simp [litMatch, ih]
      · constructor
        · intro hh
          simp [litMatch, h] at hh
        · intro hh
          rw [List.cons_append] at hh
          exact absurd (List.cons.inj hh).1.symm h

theorem litMatch_self (p r : List Char) : litMatch p (p ++ r) = some r :=
  (litMatch_some_iff p (p ++ r) r).mpr rfl

theorem litMatch_length_le (p s r : List Char) (h : litMatch p s = some r) :
    r.length ≤ s.length := by
  rw [litMatch_some_iff] at h
  subst h
  simp

theorem litMatch_none_of_get (p t : List Char) (i : Nat) (cp ct : Char)
    (hp : p[i]? = some cp) (ht : t[i]? = some ct) (hne : ct ≠ cp) :
    litMatch p t = none := by
  cases h : litMatch p t with
  | none => rfl
  | some r =>
    rw [litMatch_some_iff] at h
    subst h
    have hi : i < p.length := (List.getElem?_eq_some.mp hp).1
    rw [List.getElem?_append_left hi, hp] at ht
    exact (hne (Option.some.inj ht).symm).elim

theorem markerTail_eq_none (s : List Char)
    (h1 : litMatch vostfrClose s = none) (h2 : litMatch vfClose s = none) :
    markerTail s = none := by
  simp [markerTail, h1, h2]

theorem markerTail_length_le (s r : List Char) (h : markerTail s = some r) :
    r.length ≤ s.length := by
  unfold markerTail at h
  cases h1 : litMatch vostfrClose s with
  | some r1 =>
    rw [h1] at h
    exact Option.some.inj h ▸ litMatch_length_le _ _ _ h1
  | none =>
    rw [h1] at h
    exact litMatch_length_le _ _ _ h

theorem scanLink_rest_le (s : List Char) :
    ∀ acc l rest, scanLink acc s = some (l, rest) → rest.length ≤ s.length := by
  induction s with
  | nil =>
    intro acc l rest h
    simp [scanLink] at h
  | cons c cs ih =>
    intro acc l rest h
    unfold scanLink at h
    by_cases hn : c = '\n'
    · simp [hn] at h
    · rw [if_neg hn] at h
      cases hm : markerTail cs with
      | some r =>
        rw [hm] at h
        have := markerTail_length_le _ _ hm
        have hr : r = rest := by
          simpa using congrArg Prod.snd (Option.some.inj h)
        subst hr
        exact Nat.le_succ_of_le this
      | none =>
        rw [hm] at h
        exact Nat.le_succ_of_le (ih _ _ _ h)

theorem contAfterName_rest_le (s : List Char) :
    ∀ l rest, contAfterName s = some (l, rest) → rest.length ≤ s.length := by
  intro l rest h
  unfold contAfterName at h
  cases h1 : litMatch ['"', ','] s with
  | none => rw [h1] at h; cases h
  | some r =>
    simp only [h1] at h
    have hr : r.length ≤ s.length := litMatch_length_le _ _ _ h1
    split at h
    · rename_i r2 heq
      have hd2 : r2.length < r.length := by
        have := (List.dropWhile_sublist (l := r) (fun c => c == ' ')).length_le
        rw [heq] at this
        simp at this
        omega
      have := scanLink_rest_le r2 [] l rest h
      omega
    · cases h

theorem scanName_rest_le (s : List Char) :
    ∀ acc n l rest, scanName acc s = some (n, l, rest) → rest.length ≤ s.length := by
  induction s with
  | nil =>
    intro acc n l rest h
    simp [scanName] at h
  | cons c cs ih =>
    intro acc n l rest h
    unfold scanName at h
    by_cases hn : c = '\n'
    · simp [hn] at h
    · rw [if_neg hn] at h
      cases hm : contAfterName cs with
      | some lr =>
        rw [hm] at h
        have hrest : lr.2 = rest := by
          have := Option.some.inj h
          simpa using congrArg (fun x => x.2.2) this
        rw [← hrest]
        exact Nat.le_succ_of_le (contAfterName_rest_le cs lr.1 lr.2 (by rw [hm]))
      | none =>
        rw [hm] at h
        exact Nat.le_succ_of_le (ih _ _ _ _ h)

theorem matchAt_rest_lt (s n l rest : List Char) (h : matchAt s = some (n, l, rest)) :
    rest.length < s.length := by
  unfold matchAt at h
  cases h1 : litMatch panneauLit s with
  | none => rw [h1] at h; cases h
  | some r =>
    rw [h1] at h
    have hr : r.length + panneauLit.length = s.length := by
      rw [litMatch_some_iff] at h1
      subst h1
      simp [Nat.add_comm]
    have := scanName_rest_le r [] n l rest h
    simp [panneauLit] at hr
    omega

theorem findallF_nil (fuel : Nat) : findallF fuel [] = [] := by
  cases fuel <;> rfl

theorem findallF_fuel (f1 : Nat) :
    ∀ (f2 : Nat) (s : List Char), s.length ≤ f1 → s.length ≤ f2 →
      findallF f1 s = findallF f2 s := by
  induction f1 with
  | zero =>
    intro f2 s h1 _
    have : s = [] := List.length_eq_zero.mp (Nat.le_zero.mp h1)
    subst this
    rw [findallF_nil, findallF_nil]
  | succ f ih =>
    intro f2 s h1 h2
    cases s with
    | nil => rw [findallF_nil, findallF_nil]
    | cons c cs =>
      cases f2 with
      | zero => simp at h2
      | succ g =>
        cases hm : matchAt (c :: cs) with
        | some x =>
          obtain ⟨n, l, rest⟩ := x
          have hlt : rest.length < (c :: cs).length := matchAt_rest_lt _ _ _ _ hm
          simp only [List.length_cons] at hlt h1 h2
          simp only [findallF, hm]
          exact congrArg _ (ih g rest (by omega) (by omega))
        | none =>
          simp only [List.length_cons] at h1 h2
          simp only [findallF, hm]
          exact ih g cs (by omega) (by omega)

theorem findall_nil : findall [] = [] := rfl

theorem findall_pos (c : Char) (cs n l rest : List Char)
    (h : matchAt (c :: cs) = some (n, l, rest)) :
    findall (c :: cs) = (n, l) :: findall rest := by
  unfold findall
  simp only [List.length_cons, findallF, h]
  have hlt : rest.length < (c :: cs).length := matchAt_rest_lt _ _ _ _ h
  simp only [List.length_cons] at hlt
  exact congrArg _ (findallF_fuel cs.length rest.length rest (by omega) (by omega))

theorem findall_neg (c : Char) (cs : List Char) (h : matchAt (c :: cs) = none) :
    findall (c :: cs) = findall cs := by
  unfold findall
  simp only [List.length_cons, findallF, h]

theorem vostfrClose_eq : vostfrClose = vostfrMk ++ closeLit := rfl

theorem vfClose_eq : vfClose = vfMk ++ closeLit := rfl

theorem markerTail_none_of (lr mk rest : List Char)
    (hne : lr ≠ []) (hq : ∀ c ∈ lr, c ≠ '"')
    (hmk : mk = vostfrMk ∨ mk = vfMk) :
    markerTail (lr ++ mk ++ closeLit ++ rest) = none := by
  rcases hmk with rfl | rfl
  · rcases lr with _ | ⟨a, _ | ⟨b, _ | ⟨c, _ | ⟨d, _ | ⟨e, _ | ⟨f, _ | ⟨g, tl⟩⟩⟩⟩⟩⟩⟩
    · exact absurd rfl hne
    · exact markerTail_eq_none _
        (litMatch_none_of_get _ _ 1 'o' 'v' rfl rfl (by decide))
        (litMatch_none_of_get _ _ 2 '"' 'o' rfl rfl (by decide))
    · exact markerTail_eq_none _
        (litMatch_none_of_get _ _ 2 's' 'v' rfl rfl (by decide))
        (litMatch_none_of_get _ _ 2 '"' 'v' rfl rfl (by decide))
    · exact markerTail_eq_none _
        (litMatch_none_of_get _ _ 3 't' 'v' rfl rfl (by decide))
        (litMatch_none_of_get _ _ 2 '"' c rfl rfl (hq c (by simp)))
    · exact markerTail_eq_none _
        (litMatch_none_of_get _ _ 4 'f' 'v' rfl rfl (by decide))
        (litMatch_none_of_get _ _ 2 '"' c rfl rfl (hq c (by simp)))
    · exact markerTail_eq_none _
        (litMatch_none_of_get _ _ 5 'r' 'v' rfl rfl (by decide))
        (litMatch_none_of_get _ _ 2 '"' c rfl rfl (hq c (by simp)))
    · exact markerTail_eq_none _
        (litMatch_none_of_get _ _ 6 '"' 'v' rfl rfl (by decide))
        (litMatch_none_of_get _ _ 2 '"' c rfl rfl (hq c (by simp)))
    · exact markerTail_eq_none _
        (litMatch_none_of_get _ _ 6 '"' g rfl (by simp) (hq g (by simp)))
        (litMatch_none_of_get _ _ 2 '"' c rfl rfl (hq c (by simp)))
  · rcases lr with _ | ⟨a, _ | ⟨b, _ | ⟨c, _ | ⟨d, _ | ⟨e, _ | ⟨f, _ | ⟨g, tl⟩⟩⟩⟩⟩⟩⟩
    · exact absurd rfl hne
    · exact markerTail_eq_none _
        (litMatch_none_of_get _ _ 1 'o' 'v' rfl rfl (by decide))
        (litMatch_none_of_get _ _ 2 '"' 'f' rfl rfl (by decide))
    · exact markerTail_eq_none _
        (litMatch_none_of_get _ _ 2 's' 'v' rfl rfl (by decide))
        (litMatch_none_of_get _ _ 2 '"' 'v' rfl rfl (by decide))
    · exact markerTail_eq_none _
        (litMatch_none_of_get _ _ 3 't' 'v' rfl rfl (by decide))
        (litMatch_none_of_get _ _ 2 '"' c rfl rfl (hq c (by simp)))
    · exact markerTail_eq_none _
        (litMatch_none_of_get _ _ 4 'f' 'v' rfl rfl (by decide))
        (litMatch_none_of_get _ _ 2 '"' c rfl rfl (hq c (by simp)))
    · exact markerTail_eq_none _
        (litMatch_none_of_get _ _ 5 'r' 'v' rfl rfl (by decide))
        (litMatch_none_of_get _ _ 2 '"' c rfl rfl (hq c (by simp)))
    · exact markerTail_eq_none _
        (litMatch_none_of_get _ _ 6 '"' 'v' rfl rfl (by decide))
        (litMatch_none_of_get _ _ 2 '"' c rfl rfl (hq c (by simp)))
    · exact markerTail_eq_none _
        (litMatch_none_of_get _ _ 6 '"' g rfl (by simp) (hq g (by simp)))
        (litMatch_none_of_get _ _ 2 '"' c rfl rfl (hq c (by simp)))

theorem scanLink_complete (L : List Char) :
    ∀ acc mk rest, L ≠ [] → (∀ c ∈ L, c ≠ '"') → (∀ c ∈ L, c ≠ '\n') →
    (mk = vostfrMk ∨ mk = vfMk) →
    scanLink acc (L ++ mk ++ closeLit ++ rest) = some (acc ++ L, rest) := by
  induction L with
  | nil =>
    intro acc mk rest hne _ _ _
    exact absurd rfl hne
  | cons a L ih =>
    intro acc mk rest _ hq hn hmk
    cases L with
    | nil =>
      have hm : markerTail (mk ++ closeLit ++ rest) = some rest := by
        rcases hmk with rfl | rfl
        · unfold markerTail
          rw [show vostfrMk ++ closeLit ++ rest = vostfrClose ++ rest from by
                simp [vostfrClose_eq], litMatch_self]
        · unfold markerTail
          rw [litMatch_none_of_get vostfrClose _ 1 'o' 'f' rfl rfl (by decide)]
          rw [show vfMk ++ closeLit ++ rest = vfClose ++ rest from by
                simp [vfClose_eq], litMatch_self]
      simp only [List.cons_append, List.nil_append, List.append_eq, scanLink]
      rw [if_neg (hn a (by simp)), hm]
    | cons b L' =>
      have hmt := markerTail_none_of (b :: L') mk rest (by simp)
        (fun c hc => hq c (by simp at hc ⊢; tauto)) hmk
      simp only [List.cons_append] at hmt ⊢
      rw [scanLink, if_neg (hn a (by simp)), hmt]
      have ihr := ih (acc ++ [a]) mk rest (by simp)
        (fun c hc => hq c (by simp at hc ⊢; tauto))
        (fun c hc => hn c (by simp at hc ⊢; tauto)) hmk
      simp only [List.cons_append] at ihr
      rw [ihr, List.append_cons acc a (b :: L')]

theorem contAfterName_complete (L mk rest : List Char)
    (hL : L ≠ []) (hq : ∀ c ∈ L, c ≠ '"') (hn : ∀ c ∈ L, c ≠ '\n')
    (hmk : mk = vostfrMk ∨ mk = vfMk) :
    contAfterName ('"' :: ',' :: ' ' :: '"' :: (L ++ mk ++ closeLit ++ rest)) =
      some (L, rest) := by
  have h := scanLink_complete L [] mk rest hL hq hn hmk
  rw [List.nil_append] at h
  exact h

theorem contAfterName_fail (S X : List Char) (hS : S ≠ []) (hq : ∀ c ∈ S, c ≠ '"') :
    contAfterName (S ++ X) = none := by
  cases S with
  | nil => exact absurd rfl hS
  | cons s0 S' =>
    unfold contAfterName
    rw [litMatch_none_of_get ['"', ','] _ 0 '"' s0 rfl (by simp) (hq s0 (by simp))]

theorem scanName_complete (N : List Char) :
    ∀ acc tail lnk rest, N ≠ [] → (∀ c ∈ N, c ≠ '"') → (∀ c ∈ N, c ≠ '\n') →
    contAfterName tail = some (lnk, rest) →
    scanName acc (N ++ tail) = some (acc ++ N, lnk, rest) := by
  induction N with
  | nil =>
    intro acc tail lnk rest hne _ _ _
    exact absurd rfl hne
  | cons a N' ih =>
    intro acc tail lnk rest _ hq hn htail
    cases N' with
    | nil =>
      simp only [List.cons_append, List.nil_append, List.append_eq, scanName]
      rw [if_neg (hn a (by simp)), htail]
    | cons b N'' =>
      have hfail := contAfterName_fail (b :: N'') tail (by simp)
        (fun c hc => hq c (by simp at hc ⊢; tauto))
      simp only [List.cons_append] at hfail ⊢
      rw [scanName, if_neg (hn a (by simp)), hfail]
      have ihr := ih (acc ++ [a]) tail lnk rest (by simp)
        (fun c hc => hq c (by simp at hc ⊢; tauto))
        (fun c hc => hn c (by simp at hc ⊢; tauto)) htail
      simp only [List.cons_append] at ihr
      rw [ihr, List.append_cons acc a (b :: N'')]

theorem matchAt_complete (N L mk rest : List Char)
    (hN1 : N ≠ []) (hN2 : ∀ c ∈ N, c ≠ '"') (hN3 : ∀ c ∈ N, c ≠ '\n')
    (hL1 : L ≠ []) (hL2 : ∀ c ∈ L, c ≠ '"') (hL3 : ∀ c ∈ L, c ≠ '\n')
    (hmk : mk = vostfrMk ∨ mk = vfMk) :
    matchAt (panneauLit ++
      (N ++ ('"' :: ',' :: ' ' :: '"' :: (L ++ mk ++ closeLit ++ rest)))) =
      some (N, L, rest) := by
  unfold matchAt
  rw [litMatch_self]
  have h := scanName_complete N []
    ('"' :: ',' :: ' ' :: '"' :: (L ++ mk ++ closeLit ++ rest)) L rest
    hN1 hN2 hN3 (contAfterName_complete L mk rest hL1 hL2 hL3 hmk)
  rw [List.nil_append] at h
  exact h

theorem findall_pos' (s n l rest : List Char) (h : matchAt s = some (n, l, rest)) :
    findall s = (n, l) :: findall rest := by
  cases s with
  | nil => cases h
  | cons c cs => exact findall_pos c cs n l rest h

theorem findall_skip (sep : List Char) :
    ∀ tail, (∀ k, k < sep.length → litMatch panneauLit (sep.drop k ++ tail) = none) →
    findall (sep ++ tail) = findall tail := by
  induction sep with
  | nil =>
    intro tail _
    rw [List.nil_append]
  | cons c sep' ih =>
    intro tail h
    have h0 : matchAt (c :: (sep' ++ tail)) = none := by
      unfold matchAt
      have := h 0 (by simp)
      simp only [List.drop_zero, List.cons_append] at this
      rw [this]
    rw [List.cons_append, findall_neg c (sep' ++ tail) h0]
    exact ih tail (fun k hk => by
      have := h (k + 1) (by simpa using Nat.succ_lt_succ hk)
      simpa using this)

theorem goodStr_spec (s : String) (h : goodStr s = true) :
    s.data ≠ [] ∧ (∀ c ∈ s.data, c ≠ '"') ∧ (∀ c ∈ s.data, c ≠ '\n') := by
  simp only [goodStr, Bool.and_eq_true, List.all_eq_true] at h
  obtain ⟨h1, h2⟩ := h
  refine ⟨?_, ?_, ?_⟩
  · intro hd
    have : s = "" := by
      cases s
      simp_all
    rw [this] at h1
    simp at h1
  · intro c hc
    have := h2 c hc
    simp only [Bool.and_eq_true, Bool.not_eq_true', beq_eq_false_iff_ne] at this
    exact this.1
  · intro c hc
    have := h2 c hc
    simp only [Bool.and_eq_true, Bool.not_eq_true', beq_eq_false_iff_ne] at this
    exact this.2

theorem noLitIn_spec (sep : String) (tail : List Char) (h : noLitIn sep tail = true) :
    ∀ k, k < sep.data.length → litMatch panneauLit (sep.data.drop k ++ tail) = none := by
  intro k hk
  simp only [noLitIn, List.all_eq_true] at h
  have := h k (List.mem_range.mpr hk)
  exact Option.isNone_iff_eq_none.mp this

theorem declText_data (name link marker : String) (r : List Char) :
    (declText name link marker).data ++ r =
    panneauLit ++
      (name.data ++ ('"' :: ',' :: ' ' :: '"' ::
        (link.data ++ marker.data ++ closeLit ++ r))) := by
  simp [declText, panneauLit, closeLit]

theorem findall_build (items : List DeclItem) :
    ∀ last : String,
    (∀ d ∈ items, goodStr d.name = true ∧ goodStr d.link = true ∧
      (d.marker = "vostfr" ∨ d.marker = "vf")) →
    sepsOk items last = true →
    findall (buildPage items last).data =
      items.map (fun d => (d.name.data, d.link.data)) := by
  induction items with
  | nil =>
    intro last _ hsep
    simp only [buildPage, List.map_nil]
    have hk := noLitIn_spec last [] hsep
    have h2 := findall_skip last.data [] hk
    rw [List.append_nil] at h2
    rw [h2, findall_nil]
  | cons d ds ih =>
    intro last hgood hsep
    obtain ⟨hgn, hgl, hgm⟩ := hgood d (by simp)
    simp only [sepsOk, Bool.and_eq_true] at hsep
    obtain ⟨hs1, hs2⟩ := hsep
    obtain ⟨hn1, hn2, hn3⟩ := goodStr_spec d.name hgn
    obtain ⟨hl1, hl2, hl3⟩ := goodStr_spec d.link hgl
    have hmkd : d.marker.data = vostfrMk ∨ d.marker.data = vfMk := by
      rcases hgm with h | h <;> rw [h]
      · left; rfl
      · right; rfl
    simp only [buildPage, String.data_append, List.append_assoc]
    have hksep := noLitIn_spec d.sep
      ((declText d.name d.link d.marker ++ buildPage ds last).data) hs1
    simp only [String.data_append] at hksep
    rw [findall_skip d.sep.data
      ((declText d.name d.link d.marker).data ++ (buildPage ds last).data) hksep]
    rw [declText_data d.name d.link d.marker (buildPage ds last).data]
    rw [findall_pos' _ _ _ _
      (matchAt_complete d.name.data d.link.data d.marker.data
        (buildPage ds last).data hn1 hn2 hn3 hl1 hl2 hl3 hmkd)]
    rw [ih last (fun x hx => hgood x (by simp [hx])) hs2]
    simp

theorem mk_spec (url name : String) (alts g cats langs : List String) (img : String)
    (c : Catalogue) (h : mkCatalogue url name alts g cats langs img = some c) :
    canonicalUrl url = some c.url ∧
    c.site_url = (joinSlash ((pySplitSlash url.data).take 3)).asString ++ "/" ∧
    c._page = none ∧ c._name_with_year = none ∧
    c.alternative_names = alts ∧
    (∀ a as, alts = a :: as → c.name = a) ∧
    (alts = [] → c.name = c._raw_name) ∧
    (name ≠ "" → c._raw_name = name) ∧
    (name = "" →
      (pyIndexFromEnd2 (pySplitSlash url.data)).map List.asString = some c._raw_name) := by
  unfold mkCatalogue at h
  split at h
  · cases h
  · rename_i canon hcan
    split at h
    · cases h
    · rename_i base hbase
      have hc := (Option.some.inj h).symm
      subst hc
      refine ⟨hcan, rfl, rfl, rfl, rfl, ?_, ?_, ?_, ?_⟩
      · intro a as hh
        subst hh
        rfl
      · intro hh
        subst hh
        rfl
      · intro hh
        rw [if_pos hh] at hbase
        exact (Option.some.inj hbase).symm
      · intro hh
        rw [if_neg (by simp [hh])] at hbase
        rw [hbase]

theorem find?_first (p : AnimeRecord → Bool) (pre : List AnimeRecord)
    (a : AnimeRecord) (post : List AnimeRecord)
    (hpre : ∀ b ∈ pre, p b = false) (ha : p a = true) :
    (pre ++ a :: post).find? p = some a := by
  induction pre with
  | nil => simp [List.find?_cons_of_pos, ha]
  | cons b pre ih =>
    rw [List.cons_append, List.find?_cons_of_neg _ (by simp [hpre b (by simp)])]
    exact ih (fun x hx => hpre x (by simp [hx]))

theorem resolveGo_none (oracle : String → QueryOutcome) :
    ∀ ns : List String, (∀ n ∈ ns, queryYieldsNoMatch oracle n = true) →
    resolveGo oracle ns = (none, ns.length) := by
  intro ns
  induction ns with
  | nil =>
    intro _
    rfl
  | cons n ns ih =>
    intro h
    have hn := h n (by simp)
    have hrec := ih (fun x hx => h x (by simp [hx]))
    unfold queryYieldsNoMatch at hn
    unfold resolveGo
    cases ho : oracle (jikanUrl n) with
    | error =>
      simp only [ho]
      rw [hrec]
      simp
    | response st data =>
      simp only [ho] at hn ⊢
      by_cases hst : st = 200
      · rw [if_pos hst] at hn ⊢
        have hfind : data.find? (recordMatches n) = none :=
          Option.isNone_iff_eq_none.mp hn
        simp only [hfind]
        rw [hrec]
        simp
      · rw [if_neg hst]
        rw [hrec]
        simp

theorem resolveGo_first (oracle : String → QueryOutcome) (n : String) (ns : List String)
    (data : List AnimeRecord) (a : AnimeRecord)
    (ho : oracle (jikanUrl n) = QueryOutcome.response 200 data)
    (hfind : data.find? (recordMatches n) = some a) :
    resolveGo oracle (n :: ns) = (some (composeNameYear a), 1) := by
  unfold resolveGo
  simp [ho, hfind]

theorem normalize_charset (s : String) :
    (normalize s).data.all (fun c => isWordChar c || isPySpace c) = true := by
  rw [List.all_eq_true]
  intro c hc
  have hc' : c ∈ ((pyStrip (pyLower s)).data.filter
      (fun c => isWordChar c || isPySpace c)) := hc
  exact (List.mem_filter.mp hc').2

theorem toLower_not_upper (c : Char) : isAsciiUpper (Char.toLower c) = false := by
  show isAsciiUpper
      (if c.toNat ≥ 65 ∧ c.toNat ≤ 90 then Char.ofNat (c.toNat + 32) else c) = false
  split
  · rename_i h
    obtain ⟨h1, h2⟩ := h
    generalize hgen : c.toNat = n at h1 h2 ⊢
    interval_cases n <;> decide
  · rename_i h
    simp only [isAsciiUpper, Bool.and_eq_false_iff, decide_eq_false_iff_not]
    by_cases h1 : 65 ≤ c.toNat
    · right
      intro h2
      exact h ⟨h1, h2⟩
    · left
      exact h1

theorem normalize_no_upper (s : String) :
    (normalize s).data.all (fun c => !(isAsciiUpper c)) = true := by
  rw [List.all_eq_true]
  intro c hc
  have hc' : c ∈ ((pyStrip (pyLower s)).data.filter
      (fun c => isWordChar c || isPySpace c)) := hc
  have h1 : c ∈ (pyStrip (pyLower s)).data := (List.mem_filter.mp hc').1
  have h2 : c ∈ (pyLower s).data := by
    have hx1 : c ∈ (((pyLower s).data.dropWhile isPySpace).reverse.dropWhile
        isPySpace).reverse := h1
    have hx2 := List.mem_reverse.mp hx1
    have hx3 := (List.dropWhile_sublist isPySpace).subset hx2
    have hx4 := List.mem_reverse.mp hx3
    exact (List.dropWhile_sublist isPySpace).subset hx4
  have h3 : c ∈ s.data.map Char.toLower := h2
  obtain ⟨c', _, rfl⟩ := List.mem_map.mp h3
  simp [toLower_not_upper]

theorem data_asString (s : String) : s.data.asString = s := by
  cases s
  rfl

theorem pyTake4_ne (s : String) (h : s ≠ "") : pyTake4 s ≠ "" := by
  intro hc
  apply h
  unfold pyTake4 at hc
  have hdata : s.data.take 4 = [] := by
    have := congrArg String.data hc
    exact this
  rcases List.take_eq_nil_iff.mp hdata with h4 | hnil
  · cases h4
  · cases s
    simp_all

/-- C1: page() is fetch-once, cache-forever, degrade-to-empty.  On a
fresh entity (empty page cache) a call performs exactly one GET, to the
entity's canonical URL; a non-success response caches and returns the
empty string (no exception — `pageFn` is total); a success response
caches and returns the body; afterwards the cache holds the returned
value and any subsequent call — under any network behaviour — returns
the identical cached string with no request and no state change. -/
theorem C1_page_contract (c : Catalogue) (net : String → Response)
    (h : c._page = none) :
    (pageFn c net).2.2 = [c.url] ∧
    ((net c.url).is_success = false → (pageFn c net).1 = "") ∧
    ((net c.url).is_success = true → (pageFn c net).1 = (net c.url).text) ∧
    (pageFn c net).2.1._page = some (pageFn c net).1 ∧
    (∀ net2, pageFn (pageFn c net).2.1 net2 =
      ((pageFn c net).1, (pageFn c net).2.1, [])) := by
  cases hs : (net c.url).is_success
  · refine ⟨?_, ?_, ?_, ?_, ?_⟩ <;> simp [pageFn, h, hs]
  · refine ⟨?_, ?_, ?_, ?_, ?_⟩ <;> simp [pageFn, h, hs]

/-- C1 witness: on the fresh entity `catW1` with an always-failing
network, the call returns the empty string, requests exactly the canonical
URL, and a second call (same failing network) returns the identical cached
value with no request. -/
theorem C1_page_contract_witness :
    (pageFn catW1 netFail).1 = "" ∧
    (pageFn catW1 netFail).2.2 = ["https://anime-sama.fr/catalogue/naruto/"] ∧
    pageFn (pageFn catW1 netFail).2.1 netFail =
      ("", (pageFn catW1 netFail).2.1, []) := by
  have h := C1_page_contract catW1 netFail rfl
  refine ⟨h.2.1 rfl, h.1, ?_⟩
  have h5 := h.2.2.2.2 netFail
  rw [h.2.1 rfl] at h5
  exact h5

/-- C3: when every candidate name (display name followed by the
alternative names) yields no match — exception, non-200 status, or a 200
response without a matching record — `get_name_with_year` returns the
entity's display name unchanged, caches it, and every subsequent call
returns the identical string with zero further metadata queries, under any
later oracle behaviour. -/
theorem C3_no_match_fallback (c : Catalogue) (oracle : String → QueryOutcome)
    (hc : c._name_with_year = none)
    (hnm : ∀ n ∈ namesToTry c, queryYieldsNoMatch oracle n = true) :
    (get_name_with_year c oracle).1 = c.name ∧
    (get_name_with_year c oracle).2.1._name_with_year = some c.name ∧
    (∀ oracle2, get_name_with_year (get_name_with_year c oracle).2.1 oracle2 =
      (c.name, (get_name_with_year c oracle).2.1, 0)) := by
  have hres := resolveGo_none oracle (namesToTry c) hnm
  have hmain : get_name_with_year c oracle =
      (c.name, { c with _name_with_year := some c.name }, (namesToTry c).length) := by
    unfold get_name_with_year
    simp only [hc, hres]
  rw [hmain]
  refine ⟨rfl, rfl, fun oracle2 => ?_⟩
  unfold get_name_with_year
  simp

/-- C3 witness: `catW3` (candidates "Bleach Alt", "Bleach Alt") under an
always-raising oracle falls back to its display name, caches it, and a
repeated call — even under an oracle that would now answer successfully —
returns the identical cached string with zero queries. -/
theorem C3_no_match_fallback_witness :
    (get_name_with_year catW3 errOracle).1 = "Bleach Alt" ∧
    (get_name_with_year catW3 errOracle).2.1._name_with_year = some "Bleach Alt" ∧
    get_name_with_year (get_name_with_year catW3 errOracle).2.1 narutoOracle =
      ("Bleach Alt", (get_name_with_year catW3 errOracle).2.1, 0) := by
  have h := C3_no_match_fallback catW3 errOracle rfl (fun n _ => rfl)
  exact ⟨h.1, h.2.1, h.2.2 narutoOracle⟩

/-- C4 counterexample: the claim says the matcher declares a match
whenever the normalized forms are equal, for every pair of strings; but on
the pair ("", "") the code short-circuits on the falsy record title and
returns no-match although the normalized forms are equal. -/
theorem C4_empty_title_cex :
    _titles_match "" "" = false ∧ normalize "" = normalize "" := by
  exact ⟨rfl, rfl⟩

/-- C4 (amended): the matcher declares a match if and only if the record
title is non-empty AND (the normalized forms are equal, or the normalized
search title occurs in the normalized record title, or conversely). -/
theorem C4_titles_match_characterization (s a : String) :
    _titles_match s a = true ↔
      (a ≠ "" ∧ (normalize s = normalize a ∨
        pyIn (normalize s) (normalize a) = true ∨
        pyIn (normalize a) (normalize s) = true)) := by
  unfold _titles_match
  by_cases ha : a = ""
  · simp [ha]
  · simp only [ha, if_neg, Bool.or_eq_true, beq_iff_eq, ne_eq, not_false_eq_true,
      true_and, if_false]
    tauto

/-- C5 counterexample: the claim says `normalize` removes every character
that is neither alphanumeric nor whitespace, and that its output contains
only (lowercase) alphanumeric and whitespace characters; but the
underscore — neither alphanumeric nor whitespace — survives, because the
regex class `\w` keeps it. -/
theorem C5_underscore_cex :
    normalize "a_b" = "a_b" ∧ '_' ∈ ("a_b" : String).data ∧
      ('_'.isAlphanum || '_'.isWhitespace) = false := by
  refine ⟨rfl, by decide, by decide⟩

/-- C5 (amended): `normalize` lowercases, trims surrounding whitespace,
then removes every character that is neither a word character
(alphanumeric or underscore) nor whitespace; hence every output character
is a word character or whitespace, and no ASCII uppercase letter remains;
the claim's two examples hold. -/
theorem C5_normalize_characterization :
    (∀ s : String,
      (normalize s).data.all (fun c => isWordChar c || isPySpace c) = true) ∧
    (∀ s : String, (normalize s).data.all (fun c => !(isAsciiUpper c)) = true) ∧
    normalize "Attack on Titan!" = normalize "attack on titan" ∧
    normalize "" = "" := by
  exact ⟨normalize_charset, normalize_no_upper, by decide, rfl⟩

/-- C2: on a cleaned page built from N well-formed season declarations
(names and links non-empty, free of quotes and newlines; marker one of the
two fixed tokens) separated by text in which the declaration-head literal
never occurs, season extraction returns exactly N `Season` records in
document order, each with the language marker stripped from the captured
link and with URL equal to the entity's canonical URL concatenated with
the stripped relative link. -/
theorem C2_seasons_extraction (c : Catalogue) (serie : String)
    (items : List DeclItem) (last : String)
    (hitems : ∀ d ∈ items, goodStr d.name = true ∧ goodStr d.link = true ∧
      (d.marker = "vostfr" ∨ d.marker = "vf"))
    (hseps : sepsOk items last = true) :
    seasonsFromCleaned c (buildPage items last) serie =
      items.map (fun d =>
        { url := c.url ++ d.link, name := d.name, serie_name := serie : Season }) := by
  unfold seasonsFromCleaned
  rw [findall_build items last hitems hseps, List.map_map]
  apply List.map_congr_left
  intro d _
  simp [data_asString]

/-- C2 witness: a concrete page with two declarations (one `vostfr`, one
`vf` marker) yields exactly the two seasons in order, markers stripped
and URLs concatenated. -/
theorem C2_seasons_extraction_witness :
    seasonsFromCleaned catW2 (buildPage itemsW2 lastW2) "One Piece" =
      [{ url := "https://anime-sama.fr/catalogue/one-piece/saison1/"
         name := "Saison 1", serie_name := "One Piece" },
       { url := "https://anime-sama.fr/catalogue/one-piece/film/"
         name := "Film", serie_name := "One Piece" }] := by
  have h := C2_seasons_extraction catW2 "One Piece" itemsW2 lastW2
    (by decide) (by decide)
  rw [h]
  rfl

/-- C6 counterexample: the claim's year derivation prefers any explicit
year field and takes the first 4 characters of any present start date;
the code instead falls through on a zero year (Python truthiness of `0`)
and on an empty start-date string (truthiness of `""`). -/
theorem C6_year_truthiness_cex :
    composeNameYear aZero = "T (1999)" ∧ specComposeNameYear aZero = "T (0)" ∧
    composeNameYear aEmptyAired = "U" ∧ specComposeNameYear aEmptyAired = "U ()" ∧
    ("T (1999)" : String) ≠ "T (0)" ∧ ("U" : String) ≠ "U ()" := by
  refine ⟨by decide, by decide, by decide, by decide, by decide, by decide⟩

/-- C6 (amended): for the first matching record of a 200 response to the
first candidate query, resolution returns the composed name after exactly
one query (first match wins, no later record or candidate considered);
the year prefers the explicit year field when non-zero, else the first 4
characters of the start-date field when present and non-empty, else no
year; the result is `"<title> (<year>)"` when a year was found and the
bare default title otherwise. -/
theorem C6_first_match_composition (c : Catalogue) (oracle : String → QueryOutcome)
    (pre post : List AnimeRecord) (a : AnimeRecord)
    (hc : c._name_with_year = none)
    (hq : oracle (jikanUrl c.name) = QueryOutcome.response 200 (pre ++ a :: post))
    (hpre : ∀ b ∈ pre, recordMatches c.name b = false)
    (ha : recordMatches c.name a = true) :
    (get_name_with_year c oracle).1 = composeNameYear a ∧
    (get_name_with_year c oracle).2.2 = 1 ∧
    (∀ y : Int, a.year = some y → y ≠ 0 →
      composeNameYear a = a.title ++ " (" ++ toString y ++ ")") ∧
    ((a.year = none ∨ a.year = some 0) → ∀ s, a.aired_from = some s → s ≠ "" →
      composeNameYear a = a.title ++ " (" ++ pyTake4 s ++ ")") ∧
    ((a.year = none ∨ a.year = some 0) →
      (a.aired_from = none ∨ a.aired_from = some "") →
      composeNameYear a = a.title) := by
  have hfind : ((pre ++ a :: post).find? (recordMatches c.name)) = some a :=
    find?_first _ pre a post hpre ha
  have hres : resolveGo oracle (namesToTry c) = (some (composeNameYear a), 1) :=
    resolveGo_first oracle c.name c.alternative_names _ a hq hfind
  have hmain : get_name_with_year c oracle =
      (composeNameYear a, { c with _name_with_year := some (composeNameYear a) }, 1) := by
    unfold get_name_with_year
    simp only [hc, hres]
  refine ⟨by rw [hmain], by rw [hmain], ?_, ?_, ?_⟩
  · intro y hy hy0
    unfold composeNameYear
    rw [hy]
    simp [hy0]
  · intro hy s hs hs0
    have hair : airedPrefix a = pyTake4 s := by
      unfold airedPrefix
      rw [hs]
      simp [hs0]
    have hcf : composeFromAired a = a.title ++ " (" ++ pyTake4 s ++ ")" := by
      show (if airedPrefix a ≠ "" then a.title ++ " (" ++ airedPrefix a ++ ")"
        else a.title) = a.title ++ " (" ++ pyTake4 s ++ ")"
      rw [hair, if_pos (pyTake4_ne s hs0)]
    rcases hy with hy | hy
    · unfold composeNameYear
      rw [hy]
      exact hcf
    · unfold composeNameYear
      rw [hy]
      exact hcf
  · intro hy hair
    have hap : airedPrefix a = "" := by
      unfold airedPrefix
      rcases hair with h2 | h2
      · rw [h2]
      · rw [h2]
        simp
    have hcf : composeFromAired a = a.title := by
      show (if airedPrefix a ≠ "" then a.title ++ " (" ++ airedPrefix a ++ ")"
        else a.title) = a.title
      rw [hap]
      simp
    rcases hy with hy | hy
    · unfold composeNameYear
      rw [hy]
      exact hcf
    · unfold composeNameYear
      rw [hy]
      exact hcf

/-- C6 witness: the entity named "Naruto" under an oracle answering with a
single matching record (default title "Naruto", year 2002) resolves to
"Naruto (2002)" with exactly one query. -/
theorem C6_first_match_composition_witness :
    (get_name_with_year catW6 narutoOracle).1 = "Naruto (2002)" ∧
    (get_name_with_year catW6 narutoOracle).2.2 = 1 := by
  have h := C6_first_match_composition catW6 narutoOracle [] [] narutoRec
    rfl rfl (by simp) (by decide)
  refine ⟨h.1.trans ?_, h.2.1⟩
  decide

/-- C7 counterexample: the claim says the display name equals the slug
(last path segment) whether or not the URL carries a trailing separator;
but for the separator-free URL `.../catalogue/naruto` the constructor's
`url.split("/")[-2]` picks "catalogue", not the slug "naruto". -/
theorem C7_no_trailing_slash_cex :
    (mkCatalogue "https://anime-sama.fr/catalogue/naruto" "" [] [] [] [] "").map
      (fun c => c.name) = some "catalogue" ∧
    slugSpec "https://anime-sama.fr/catalogue/naruto" = "naruto" ∧
    ("catalogue" : String) ≠ "naruto" := by
  refine ⟨by decide, by decide, by decide⟩

/-- C7 (amended): for an entity constructed with an empty explicit name
and no alternates, the display name is the second-to-last component of
the URL split on "/" (which is the last path segment exactly when the URL
ends with the separator, as in the site's canonical catalogue URLs); a
supplied alternate name overrides the display name while the retained raw
name still equals the pre-override slug-derived name. -/
theorem C7_display_name (url a : String) (as g cats langs : List String)
    (img : String) (c c2 : Catalogue)
    (hmk : mkCatalogue url "" [] g cats langs img = some c)
    (hmk2 : mkCatalogue url "" (a :: as) g cats langs img = some c2) :
    (pyIndexFromEnd2 (pySplitSlash url.data)).map List.asString = some c.name ∧
    c2.name = a ∧
    (pyIndexFromEnd2 (pySplitSlash url.data)).map List.asString =
      some c2._raw_name := by
  obtain ⟨-, -, -, -, -, -, hnil, -, hempty⟩ :=
    mk_spec url "" [] g cats langs img c hmk
  obtain ⟨-, -, -, -, -, hcons2, -, -, hempty2⟩ :=
    mk_spec url "" (a :: as) g cats langs img c2 hmk2
  refine ⟨?_, hcons2 a as rfl, hempty2 rfl⟩
  rw [hnil rfl]
  exact hempty rfl

/-- C7 witness: for the trailing-slash URL the second-to-last split
component is the slug "naruto" and becomes the display name; with an
alternate name supplied the display name is overridden while the raw name
stays "naruto". -/
theorem C7_display_name_witness :
    (pyIndexFromEnd2 (pySplitSlash
      ("https://anime-sama.fr/catalogue/naruto/" : String).data)).map List.asString =
      some catW7.name ∧
    catW7b.name = "Alt" ∧
    (pyIndexFromEnd2 (pySplitSlash
      ("https://anime-sama.fr/catalogue/naruto/" : String).data)).map List.asString =
      some catW7b._raw_name :=
  C7_display_name "https://anime-sama.fr/catalogue/naruto/" "Alt" [] [] [] [] ""
    catW7 catW7b (by decide) (by decide)

/-- C8: two constructed entities compare equal exactly when the canonical
(trailing-separator-normalized) forms of their constructor URLs coincide;
names and all other metadata do not occur in the criterion. -/
theorem C8_url_identity (u1 n1 : String) (a1 g1 cat1 l1 : List String) (i1 : String)
    (u2 n2 : String) (a2 g2 cat2 l2 : List String) (i2 : String)
    (c1 c2 : Catalogue)
    (h1 : mkCatalogue u1 n1 a1 g1 cat1 l1 i1 = some c1)
    (h2 : mkCatalogue u2 n2 a2 g2 cat2 l2 i2 = some c2) :
    catalogueEq c1 c2 = true ↔ canonicalUrl u1 = canonicalUrl u2 := by
  have hc1 := (mk_spec u1 n1 a1 g1 cat1 l1 i1 c1 h1).1
  have hc2 := (mk_spec u2 n2 a2 g2 cat2 l2 i2 c2 h2).1
  rw [hc1, hc2]
  simp [catalogueEq]

/-- C8 witness: entities from `.../naruto` (no trailing slash, name "A")
and `.../naruto/` (trailing slash, name "B") compare equal — same
canonical URL, different names — while entities from different URLs with
the same name compare unequal. -/
theorem C8_url_identity_witness :
    catalogueEq catW8a catW8b = true ∧ catalogueEq catW8a catW8c = false := by
  have h1 := C8_url_identity "https://anime-sama.fr/catalogue/naruto" "A" [] [] [] [] ""
    "https://anime-sama.fr/catalogue/naruto/" "B" [] [] [] [] ""
    catW8a catW8b (by decide) (by decide)
  have h2 := C8_url_identity "https://anime-sama.fr/catalogue/naruto" "A" [] [] [] [] ""
    "https://anime-sama.fr/catalogue/bleach/" "A" [] [] [] [] ""
    catW8a catW8c (by decide) (by decide)
  refine ⟨h1.mpr (by decide), ?_⟩
  cases hcontra : catalogueEq catW8a catW8c
  · rfl
  · exact absurd (h2.mp hcontra) (by decide)

/-- C9 counterexample: the claim says that under the sole precondition of
a non-empty URL the constructor always succeeds; but with the non-empty,
slash-free URL "x" and an empty name the constructor fails (the
`url.split("/")[-2]` name derivation raises). -/
theorem C9_slashless_url_cex :
    mkCatalogue "x" "" [] [] [] [] "" = none ∧ ("x" : String) ≠ "" := by
  refine ⟨by decide, by decide⟩

/-- C9 (amended): construction with the empty URL fails; when the URL is
non-empty AND (an explicit name is supplied or the URL contains a "/"),
the constructor succeeds and the constructed canonical URL ends with the
path separator. -/
theorem C9_constructor_total (url name : String)
    (alts g cats langs : List String) (img : String)
    (hurl : url ≠ "")
    (hok : name ≠ "" ∨ 2 ≤ (pySplitSlash url.data).length) :
    mkCatalogue "" name alts g cats langs img = none ∧
    (mkCatalogue url name alts g cats langs img).isSome = true ∧
    (∀ c, mkCatalogue url name alts g cats langs img = some c →
      lastChar c.url = some '/') := by
  have hdata : url.data ≠ [] := by
    intro hd
    apply hurl
    cases url
    simp_all
  have hlast : ∃ ch, lastChar url = some ch := by
    cases hl : url.data.getLast? with
    | none => exact absurd (List.getLast?_eq_none_iff.mp hl) hdata
    | some ch => exact ⟨ch, hl⟩
  obtain ⟨ch, hch⟩ := hlast
  have hcanon : canonicalUrl url = some (if ch ≠ '/' then url ++ "/" else url) := by
    unfold canonicalUrl
    rw [hch]
  have hbase : (if name ≠ "" then some name
      else (pyIndexFromEnd2 (pySplitSlash url.data)).map List.asString).isSome = true := by
    rcases hok with hn | hlen
    · rw [if_pos hn]
      rfl
    · by_cases hn : name ≠ ""
      · rw [if_pos hn]
        rfl
      · rw [if_neg hn]
        unfold pyIndexFromEnd2
        rw [if_pos hlen]
        have hlt : (pySplitSlash url.data).length - 2 < (pySplitSlash url.data).length := by
          omega
        rw [List.getElem?_eq_getElem hlt]
        rfl
  refine ⟨rfl, ?_, ?_⟩
  · unfold mkCatalogue
    rw [hcanon]
    cases hb : (if name ≠ "" then some name
        else (pyIndexFromEnd2 (pySplitSlash url.data)).map List.asString) with
    | none => rw [hb] at hbase; cases hbase
    | some base => rfl
  · intro c hc
    have hu := (mk_spec url name alts g cats langs img c hc).1
    rw [hcanon] at hu
    have hcu : (if ch ≠ '/' then url ++ "/" else url) = c.url := Option.some.inj hu
    rw [← hcu]
    by_cases hslash : ch = '/'
    · rw [if_neg (by simp [hslash])]
      rw [← hslash]
      exact hch
    · rw [if_pos hslash]
      unfold lastChar
      rw [show (url ++ "/").data = url.data ++ ['/'] from by simp]
      exact List.getLast?_concat url.data

/-- C9 witness: the empty URL fails; the non-empty slash-free URL "x"
with the explicit name "N" constructs successfully and its canonical URL
"x/" ends with the separator. -/
theorem C9_constructor_total_witness :
    mkCatalogue "" "N" [] [] [] [] "" = none ∧
    (mkCatalogue "x" "N" [] [] [] [] "").isSome = true ∧
    lastChar catW9.url = some '/' := by
  have h := C9_constructor_total "x" "N" [] [] [] [] "" (by decide) (Or.inl (by decide))
  exact ⟨h.1, h.2.1, h.2.2 catW9 (by decide)⟩

/-- C10: for an entity constructed with a non-empty alternate-name list,
the display name is the first alternate name, so the resolver's ordered
candidate list is the first alternate name followed by all alternate
names (the first alternate appears twice), and the retained raw name —
when it differs from every alternate — is never among the candidates. -/
theorem C10_candidate_list (url name a : String) (as g cats langs : List String)
    (img : String) (c : Catalogue)
    (hmk : mkCatalogue url name (a :: as) g cats langs img = some c) :
    namesToTry c = a :: a :: as ∧
    (c._raw_name ∉ a :: as → c._raw_name ∉ namesToTry c) := by
  obtain ⟨-, -, -, -, halts, hcons, -, -, -⟩ :=
    mk_spec url name (a :: as) g cats langs img c hmk
  have hname := hcons a as rfl
  have h1 : namesToTry c = a :: a :: as := by
    simp [namesToTry, hname, halts]
  refine ⟨h1, ?_⟩
  intro hnot
  rw [h1]
  simp at hnot ⊢
  tauto

/-- C10 witness: the entity from `.../op/` with alternates ["A", "B"] has
candidate list ["A", "A", "B"]; its raw slug-derived name "op" is not
queried. -/
theorem C10_candidate_list_witness :
    namesToTry catW10 = ["A", "A", "B"] ∧ catW10._raw_name ∉ namesToTry catW10 := by
  have h := C10_candidate_list "https://anime-sama.fr/catalogue/op/" "" "A" ["B"]
    [] [] [] "" catW10 (by decide)
  exact ⟨h.1, h.2 (by decide)⟩

end AnimeSama
